import Mathlib

/-!
Verification development for `getoutline-docs-update-aws-organizations`
(`app/main.py`, `app/aws.py`): a shallow embedding of the data model, the
report renderer (`AWSOrganization.create_markdown` and its tag lookups), the
credential loader (`get_credentials`) and the document-sync orchestrator
(`main`), together with theorems settling the specification's claims.

External capabilities (the AWS SDK and the Outline HTTP client) are modelled
as explicit environments: the data a call would return, or the error it would
raise, is a field of the environment, and the embedded code consumes it in
the same order as the source.
-/

/-- A tag as returned by `list_tags_for_resource` / `list_user_tags`:
a dict with a `Key` and a `Value` field. -/
structure Tag where
  key : String
  value : String
deriving DecidableEq, Repr

/-- A point in time, as carried by an account's `JoinedTimestamp`
(a Python `datetime`): calendar date fields plus the time of day collapsed
into `tod` (seconds within the day).  Chronological comparison of two
`datetime`s is lexicographic comparison of these fields. -/
structure Timestamp where
  year : Nat
  month : Nat
  day : Nat
  tod : Nat
deriving DecidableEq, Repr

/-- Chronological order on timestamps, mirroring Python `datetime`
comparison (lexicographic on year, month, day, time of day). -/
def Timestamp.le (a b : Timestamp) : Bool :=
  decide (a.year < b.year) ||
    (decide (a.year = b.year) &&
      (decide (a.month < b.month) ||
        (decide (a.month = b.month) &&
          (decide (a.day < b.day) ||
            (decide (a.day = b.day) && decide (a.tod ≤ b.tod))))))

/-- `Timestamp.le` is transitive. -/
theorem Timestamp.le_trans (a b c : Timestamp) (hab : Timestamp.le a b = true)
    (hbc : Timestamp.le b c = true) : Timestamp.le a c = true := by
  simp only [Timestamp.le, Bool.or_eq_true, Bool.and_eq_true, decide_eq_true_eq] at *
  omega

/-- `Timestamp.le` is total. -/
theorem Timestamp.le_total (a b : Timestamp) :
    (Timestamp.le a b || Timestamp.le b a) = true := by
  simp only [Timestamp.le, Bool.or_eq_true, Bool.and_eq_true, decide_eq_true_eq]
  omega

/-- One AWS member account as returned by `list_accounts` (the fields
`create_markdown` reads: `Id`, `Name`, `Email`, `JoinedTimestamp`). -/
structure Account where
  id : String
  name : String
  email : String
  joinedTimestamp : Timestamp
deriving DecidableEq, Repr

/-- Access-key metadata as returned by `list_access_keys`
(the field read is `AccessKeyId`). -/
structure AccessKey where
  accessKeyId : String
deriving DecidableEq, Repr

/-- An IAM user as returned by `list_users` (the field read is `UserName`). -/
structure IamUser where
  userName : String
deriving DecidableEq, Repr

/-- The pure tag scan inside `AWSOrganization.get_account_tags`
(`aws.py` lines 63-68), applied to the tag list the provider returned for the
account: the loop returns the value of the first tag whose key is exactly
`"Description"`, and `'No Description'` when the loop falls through. -/
def get_account_tags : List Tag → String
  | [] => "No Description"
  | t :: rest => if t.key = "Description" then t.value else get_account_tags rest

/-- The per-access-key description derivation inside `create_markdown`
(`aws.py` lines 146-151): `description` starts as `'No Description'` and the
loop over the user's tags overwrites it, without breaking, whenever a tag's
key is exactly `"description"`. -/
def user_tag_description (tags : List Tag) : String :=
  tags.foldl (fun d t => if t.key = "description" then t.value else d) "No Description"

/-- Zero-padding to two digits, as `strftime`'s `%m` and `%d` do. -/
def pad2 (n : Nat) : String :=
  if n < 10 then "0" ++ toString n else toString n

/-- `JoinedTimestamp.strftime('%Y-%m-%d')` (`aws.py` line 131). -/
def Timestamp.strftime (t : Timestamp) : String :=
  toString t.year ++ "-" ++ pad2 t.month ++ "-" ++ pad2 t.day

/-- The provider data one `AWSOrganization` instance can observe during
`create_markdown`: per-account tag sets (`list_tags_for_resource`), the IAM
user list (`list_users`, all pages flattened), per-user access keys
(`list_access_keys`) and per-user tag sets (`list_user_tags`). -/
structure ProviderEnv where
  accountTags : String → List Tag
  iamUsers : List IamUser
  userAccessKeys : String → List AccessKey
  userTags : String → List Tag

/-- The comparison `sorted(accounts, key=lambda x: x['JoinedTimestamp'])`
sorts by (`aws.py` line 121). -/
def account_le (a b : Account) : Bool :=
  Timestamp.le a.joinedTimestamp b.joinedTimestamp

/-- One row of the accounts table (`aws.py` lines 127-133): the account's
id, name, looked-up description, email and formatted join date. -/
def accountRow (env : ProviderEnv) (a : Account) : String :=
  "| " ++ a.id ++ " | " ++ a.name ++ " | " ++ get_account_tags (env.accountTags a.id)
    ++ " | " ++ a.email ++ " | " ++ a.joinedTimestamp.strftime ++ " |\n"

/-- The rows of the accounts table, in the order `create_markdown` emits
them: one per account, over the sorted account list. -/
def account_rows (env : ProviderEnv) (accounts : List Account) : List String :=
  (accounts.mergeSort account_le).map (accountRow env)

/-- The users/keys-table rows contributed by one IAM user
(`aws.py` lines 138-151): a single `No Access Key` row when the user's key
list is empty, otherwise one row per access key, each with the description
derived from the user's tags (re-fetched per key; `env.userTags` models that
each such fetch returns the user's tag set). -/
def userRows (env : ProviderEnv) (u : IamUser) : String :=
  match env.userAccessKeys u.userName with
  | [] => "| " ++ u.userName ++ " | No Access Key | No Description |\n"
  | keys => String.join (keys.map fun k =>
      "| " ++ u.userName ++ " | " ++ k.accessKeyId ++ " | "
        ++ user_tag_description (env.userTags u.userName) ++ " |\n")

/-- `AWSOrganization.create_markdown` (`aws.py` lines 108-157), with the
provider calls it issues replaced by reads of `env`.  `name` is the
instance's `aws_account_name`. -/
def create_markdown (name : String) (accounts : List Account) (env : ProviderEnv) : String :=
  "> This page is automatically generated. Any manual changes will be lost. See: https://github.com/GlueOps/getoutline-docs-update-aws-organizations \n\n"
    ++ ("# AWS ROOT Organization Details for " ++ name ++ "\n\n")
    ++ "| AWS Account ID | Account Name | Description | Account Email | Created Date |\n"
    ++ "|----------------|--------------|-------------|---------------|--------------|\n"
    ++ String.join (account_rows env accounts)
    ++ "\n\n| IAM User Name | Access Key ID | Description |\n"
    ++ "|---------------|---------------|-------------|\n"
    ++ String.join (env.iamUsers.map (userRows env))

/-- A JSON value, the result of `json.loads` in `get_credentials`
(`main.py` line 35); objects are ordered key/value field lists. -/
inductive Json where
  | null : Json
  | bool (b : Bool) : Json
  | num (n : Int) : Json
  | str (s : String) : Json
  | arr (xs : List Json) : Json
  | obj (fields : List (String × Json)) : Json

/-- Python dict subscript `credentials['accounts']` (`main.py` line 36):
succeeds only on an object holding the key. -/
def Json.lookup? : Json → String → Option Json
  | .obj fields, k => (fields.find? (fun f => f.1 = k)).map (fun f => f.2)
  | _, _ => none

/-- The ways `get_credentials` fails (`main.py` lines 30-38): the
`EnvironmentError` when `AWS_CREDENTIALS_JSON` is unset or empty, the
`ValueError` re-raised on a `json.JSONDecodeError`, and the uncaught
`KeyError`/`TypeError` when the parsed data has no `'accounts'` entry. -/
inductive ConfigError where
  | envNotSet : ConfigError
  | invalidJson : ConfigError
  | missingKey : ConfigError
deriving DecidableEq, Repr

/-- `get_credentials` (`main.py` lines 22-38).  `env` is the value of the
`AWS_CREDENTIALS_JSON` environment variable (`none` when unset); `parse`
models `json.loads`, returning `none` exactly when the stdlib parser would
raise `json.JSONDecodeError`. -/
def get_credentials (parse : String → Option Json) (env : Option String) :
    Except ConfigError Json :=
  match env with
  | none => .error .envNotSet
  | some s =>
    if s = "" then .error .envNotSet
    else
      match parse s with
      | none => .error .invalidJson
      | some j =>
        match j.lookup? "accounts" with
        | none => .error .missingKey
        | some v => .ok v

/-- One credential entry of the configured list, with the fields `main`
reads (`main.py` lines 102-104): `name`, `access_key`, `secret_key`. -/
structure Cred where
  name : String
  accessKey : String
  secretKey : String
deriving DecidableEq, Repr

/-- Everything the provider returns for one organization during its
iteration of `main`'s loop: the flattened pages of `list_accounts`
(`get_aws_accounts`) and the data `create_markdown` fetches. -/
structure OrgData where
  accounts : List Account
  provider : ProviderEnv

/-- The externally visible calls `main` issues, in program order: the
document-store calls (`get_document_uuid`, `get_children_documents_to_delete`,
`delete_document`, `create_document`), the credential load, and the provider
fetches of one organization's iteration. -/
inductive Event where
  | resolveParent : Event
  | listChildren (parentId : String) : Event
  | deleteDoc (id : String) : Event
  | getCreds : Event
  | providerFetch (orgName : String) : Event
  | createDoc (parentId title body : String) : Event
deriving DecidableEq, Repr

/-- Is this event a `create_document` call? -/
def Event.isCreate : Event → Bool
  | .createDoc _ _ _ => true
  | _ => false

/-- Is this event a `delete_document` call? -/
def Event.isDelete : Event → Bool
  | .deleteDoc _ => true
  | _ => false

/-- Is this event a cloud-provider call? -/
def Event.isProvider : Event → Bool
  | .providerFetch _ => true
  | _ => false

/-- The error that terminates a failed run of `main`: the configuration
failure of `get_credentials`, a document-store failure, or a provider
failure during one organization's fetches (tagged with that organization's
name, the context `main` is processing when the exception propagates). -/
inductive RunError where
  | config (e : ConfigError) : RunError
  | docStore (msg : String) : RunError
  | provider (orgName : String) (msg : String) : RunError
deriving DecidableEq, Repr

/-- The external world one run of `main` interacts with: each field gives
the outcome of the corresponding external call (`Except.error` models the
exception the call would raise). -/
structure World where
  resolveResult : Except String String
  childrenResult : String → Except String (List String)
  deleteResult : String → Except String Unit
  credsResult : Except ConfigError (List Cred)
  orgData : Cred → Except String OrgData
  createResult : String → String → String → Except String Unit

/-- The purge loop of `main` (`main.py` lines 92-93): delete each child in
order; the first failing deletion raises and ends the loop.  Returns the
trace of issued deletions and the error, if any. -/
def purge (w : World) : List String → List Event × Option RunError
  | [] => ([], none)
  | id :: rest =>
    match w.deleteResult id with
    | .error s => ([.deleteDoc id], some (.docStore s))
    | .ok _ =>
      let r := purge w rest
      (.deleteDoc id :: r.1, r.2)

/-- The per-organization loop of `main` (`main.py` lines 101-116): for each
credential set, fetch the organization's data (`get_aws_accounts` plus the
fetches inside `create_markdown`), extend `all_accounts`, render the
markdown, and create the document; the first failure raises and ends the
loop.  `allAccounts` threads the `all_accounts` accumulator of line 97. -/
def publish (w : World) (parentId : String) (allAccounts : List Account) :
    List Cred → List Event × Except RunError Unit
  | [] => ([], .ok ())
  | c :: rest =>
    match w.orgData c with
    | .error s => ([.providerFetch c.name], .error (.provider c.name s))
    | .ok d =>
      let body := create_markdown c.name d.accounts d.provider
      match w.createResult parentId c.name body with
      | .error s =>
        ([.providerFetch c.name, .createDoc parentId c.name body], .error (.docStore s))
      | .ok _ =>
        let r := publish w parentId (allAccounts ++ d.accounts) rest
        (.providerFetch c.name :: .createDoc parentId c.name body :: r.1, r.2)

/-- `main` (`main.py` lines 80-121): resolve the parent document, list and
delete its children, load the credentials, then publish each organization in
order.  Returns the trace of external calls and the run's outcome; any
exception propagates out of `main` unchanged (logged and re-raised).
(Named `main'` because Lean reserves `main` for an IO entry point.) -/
def main' (w : World) : List Event × Except RunError Unit :=
  match w.resolveResult with
  | .error s => ([.resolveParent], .error (.docStore s))
  | .ok parentId =>
    match w.childrenResult parentId with
    | .error s => ([.resolveParent, .listChildren parentId], .error (.docStore s))
    | .ok children =>
      let p := purge w children
      match p.2 with
      | some e => ([.resolveParent, .listChildren parentId] ++ p.1, .error e)
      | none =>
        match w.credsResult with
        | .error e =>
          ([.resolveParent, .listChildren parentId] ++ p.1 ++ [.getCreds],
            .error (.config e))
        | .ok creds =>
          let r := publish w parentId [] creds
          ([.resolveParent, .listChildren parentId] ++ p.1 ++ [.getCreds] ++ r.1, r.2)

/-- The account-tag scan returns the value of the first tag whose key is
`"Description"` (as `List.find?` locates it), else `'No Description'`. -/
theorem get_account_tags_eq_find (tags : List Tag) :
    get_account_tags tags =
      match tags.find? (fun t => t.key == "Description") with
      | some t => t.value
      | none => "No Description" := by
  induction tags with
  | nil => rfl
  | cons a rest ih =>
    by_cases h : a.key = "Description"
    · have hb : (a.key == "Description") = true := by simp [h]
      simp [get_account_tags, h, List.find?, hb]
    · have hb : (a.key == "Description") = false := by simp [h]
      simp [get_account_tags, h, List.find?, hb, ih]

/-- The overwriting fold of the user-tag scan, for any initial value,
yields the value of the last matching tag (the first in the reversed
list), else the initial value. -/
theorem user_tag_fold_eq_find_reverse (tags : List Tag) (d : String) :
    tags.foldl (fun d t => if t.key = "description" then t.value else d) d =
      match tags.reverse.find? (fun t => t.key == "description") with
      | some t => t.value
      | none => d := by
  induction tags generalizing d with
  | nil => rfl
  | cons a rest ih =>
    simp only [List.foldl_cons, List.reverse_cons]
    rw [ih, List.find?_append]
    cases hfind : rest.reverse.find? (fun t => t.key == "description") with
    | some t => simp [hfind, Option.orElse]
    | none =>
      by_cases h : a.key = "description"
      · have hb : (a.key == "description") = true := by simp [h]
        simp [hfind, Option.orElse, List.find?, hb, h]
      · have hb : (a.key == "description") = false := by simp [h]
        simp [hfind, Option.orElse, List.find?, hb, h]

/-- The user-tag scan returns the value of the last tag whose key is
`"description"`, else `'No Description'`. -/
theorem user_tag_description_eq_find_reverse (tags : List Tag) :
    user_tag_description tags =
      match tags.reverse.find? (fun t => t.key == "description") with
      | some t => t.value
      | none => "No Description" :=
  user_tag_fold_eq_find_reverse tags "No Description"

/-- C3: for every account, the account-description lookup returns the value
of the tag whose key is exactly `"Description"` (case-sensitive) when such a
tag is present in the account's tag set, and returns the literal string
`"No Description"` (not empty string, not omission) when no tag with that
key exists. -/
theorem account_description_lookup_spec (tags : List Tag) :
    ((∀ t ∈ tags, t.key ≠ "Description") → get_account_tags tags = "No Description") ∧
    (∀ pre t post, tags = pre ++ t :: post → t.key = "Description" →
      (∀ u ∈ pre, u.key ≠ "Description") → get_account_tags tags = t.value) := by
  induction tags with
  | nil =>
    refine ⟨fun _ => rfl, ?_⟩
    intro pre t post h
    exact absurd h (by simp)
  | cons a rest ih =>
    constructor
    · intro h
      have ha : a.key ≠ "Description" := h a (List.mem_cons_self a rest)
      simp only [get_account_tags, if_neg ha]
      exact ih.1 fun t ht => h t (List.mem_cons_of_mem a ht)
    · intro pre t post heq hkey hpre
      cases pre with
      | nil =>
        simp only [List.nil_append] at heq
        injection heq with h1 h2
        subst h1 h2
        simp [get_account_tags, hkey]
      | cons p pre2 =>
        simp only [List.cons_append] at heq
        injection heq with h1 h2
        have hp : a.key ≠ "Description" := by
          rw [h1]; exact hpre p (List.mem_cons_self p pre2)
        simp only [get_account_tags, if_neg hp]
        subst h2
        exact ih.2 pre2 t post rfl hkey fun u hu => hpre u (List.mem_cons_of_mem p hu)

/-- Witness for C3: a tag set whose only `description`-like key is
lower-case yields `"No Description"` (case-sensitive miss), and a tag set
holding the key `"Description"` yields that tag's value. -/
theorem account_description_lookup_spec_witness :
    get_account_tags [⟨"Team", "core"⟩, ⟨"description", "lower"⟩] = "No Description" ∧
    get_account_tags [⟨"Team", "core"⟩, ⟨"Description", "Prod"⟩] = "Prod" :=
  ⟨(account_description_lookup_spec _).1 (by decide),
   (account_description_lookup_spec _).2 [⟨"Team", "core"⟩] ⟨"Description", "Prod"⟩ []
     rfl rfl (by decide)⟩

/-- C9: with more than one tag of key exactly `"description"` in a user's
tag set, the rendered per-key description is the value of the LAST such tag
(the overwriting loop), whereas the account-description lookup returns the
value of the FIRST tag with key `"Description"` (the early-returning loop):
the two lookups resolve duplicate keys differently. -/
theorem duplicate_key_first_vs_last (tags : List Tag) :
    user_tag_description tags =
      (match tags.reverse.find? (fun t => t.key == "description") with
       | some t => t.value
       | none => "No Description") ∧
    get_account_tags tags =
      (match tags.find? (fun t => t.key == "Description") with
       | some t => t.value
       | none => "No Description") ∧
    user_tag_description [⟨"description", "v1"⟩, ⟨"description", "v2"⟩] = "v2" ∧
    get_account_tags [⟨"Description", "v1"⟩, ⟨"Description", "v2"⟩] = "v1" :=
  ⟨user_tag_description_eq_find_reverse tags, get_account_tags_eq_find tags,
   by decide, by decide⟩

/-- C6: the credential loader errors when the blob is absent, empty, not
valid JSON, or missing the `'accounts'` key; otherwise it returns the data
under that key. -/
theorem get_credentials_spec (parse : String → Option Json) :
    get_credentials parse none = .error .envNotSet ∧
    get_credentials parse (some "") = .error .envNotSet ∧
    (∀ s, s ≠ "" → parse s = none →
      get_credentials parse (some s) = .error .invalidJson) ∧
    (∀ s j, s ≠ "" → parse s = some j → j.lookup? "accounts" = none →
      get_credentials parse (some s) = .error .missingKey) ∧
    (∀ s j v, s ≠ "" → parse s = some j → j.lookup? "accounts" = some v →
      get_credentials parse (some s) = .ok v) := by
  refine ⟨rfl, rfl, ?_, ?_, ?_⟩ <;> intros <;> simp [get_credentials, *]

/-- A concrete `json.loads` oracle for the C6 witness: parses `"ok"` to an
object with an `'accounts'` list, `"noacc"` to an object without it, and
rejects everything else. -/
def parse0 : String → Option Json := fun s =>
  if s = "ok" then some (.obj [("accounts", .arr [.str "a"])])
  else if s = "noacc" then some (.obj [("owner", .str "x")])
  else none

/-- Witness for C6: each failure case and the success case at concrete
inputs. -/
theorem get_credentials_spec_witness :
    get_credentials parse0 none = .error .envNotSet ∧
    get_credentials parse0 (some "garbage") = .error .invalidJson ∧
    get_credentials parse0 (some "noacc") = .error .missingKey ∧
    get_credentials parse0 (some "ok") = .ok (.arr [.str "a"]) :=
  ⟨(get_credentials_spec parse0).1,
   (get_credentials_spec parse0).2.2.1 "garbage" (by decide) rfl,
   (get_credentials_spec parse0).2.2.2.1 "noacc" (.obj [("owner", .str "x")])
     (by decide) rfl rfl,
   (get_credentials_spec parse0).2.2.2.2 "ok" (.obj [("accounts", .arr [.str "a"])])
     (.arr [.str "a"]) (by decide) rfl rfl⟩

/-- `account_le` is transitive. -/
theorem account_le_trans (a b c : Account) (hab : account_le a b = true)
    (hbc : account_le b c = true) : account_le a c = true :=
  Timestamp.le_trans _ _ _ hab hbc

/-- `account_le` is total. -/
theorem account_le_total (a b : Account) : (account_le a b || account_le b a) = true :=
  Timestamp.le_total _ _

/-- C4: for every input list of accounts, regardless of its order, the rows
of the rendered accounts table follow ascending `JoinedTimestamp` order,
are exactly the input accounts' rows (a permutation of the input), and each
row carries its own account's id, name, description, email and
`YYYY-MM-DD`-formatted join date. -/
theorem accounts_table_sorted_spec (env : ProviderEnv) (accounts : List Account) :
    account_rows env accounts = (accounts.mergeSort account_le).map (accountRow env) ∧
    (accounts.mergeSort account_le).Pairwise
      (fun a b => Timestamp.le a.joinedTimestamp b.joinedTimestamp = true) ∧
    (accounts.mergeSort account_le).Perm accounts ∧
    (∀ a : Account, accountRow env a =
      "| " ++ a.id ++ " | " ++ a.name ++ " | " ++ get_account_tags (env.accountTags a.id)
        ++ " | " ++ a.email ++ " | "
        ++ (toString a.joinedTimestamp.year ++ "-" ++ pad2 a.joinedTimestamp.month
            ++ "-" ++ pad2 a.joinedTimestamp.day) ++ " |\n") := by
  refine ⟨rfl, ?_, List.mergeSort_perm accounts account_le, fun a => rfl⟩
  have h := List.sorted_mergeSort account_le_trans account_le_total accounts
  exact h

/-- C5: a user whose access-key list is empty contributes exactly the one
row `| name | No Access Key | No Description |`; a user with keys
contributes exactly one row per key, in input key order, with that key's id
and the derived description; and the rendered document appends these per-user
blocks in the input user order. -/
theorem users_table_rows_spec (env : ProviderEnv) (u : IamUser) :
    (env.userAccessKeys u.userName = [] →
      userRows env u = "| " ++ u.userName ++ " | No Access Key | No Description |\n") ∧
    (∀ k ks, env.userAccessKeys u.userName = k :: ks →
      userRows env u = String.join ((k :: ks).map fun a =>
        "| " ++ u.userName ++ " | " ++ a.accessKeyId ++ " | "
          ++ user_tag_description (env.userTags u.userName) ++ " |\n")) ∧
    (∀ name accounts, ∃ header,
      create_markdown name accounts env =
        header ++ String.join (env.iamUsers.map (userRows env))) := by
  refine ⟨?_, ?_, ?_⟩
  · intro h
    simp [userRows, h]
  · intro k ks h
    simp [userRows, h]
  · intro name accounts
    exact ⟨_, rfl⟩

/-- A concrete provider environment for the C5 witness: `alice` has two
access keys and a lower-case `description` tag, `bob` has none. -/
def envKeys : ProviderEnv :=
  ⟨fun _ => [], [⟨"alice"⟩, ⟨"bob"⟩],
   fun n => if n = "alice" then [⟨"AKIA1"⟩, ⟨"AKIA2"⟩] else [],
   fun n => if n = "alice" then [⟨"description", "ci"⟩] else []⟩

/-- Witness for C5: `bob` (no keys) yields the single literal row; `alice`
(two keys) yields one row per key with the derived description `ci`. -/
theorem users_table_rows_spec_witness :
    userRows envKeys ⟨"bob"⟩ = "| bob | No Access Key | No Description |\n" ∧
    userRows envKeys ⟨"alice"⟩ = "| alice | AKIA1 | ci |\n| alice | AKIA2 | ci |\n" := by
  constructor
  · exact (users_table_rows_spec envKeys ⟨"bob"⟩).1 rfl
  · have h := (users_table_rows_spec envKeys ⟨"alice"⟩).2.1 ⟨"AKIA1"⟩ [⟨"AKIA2"⟩] rfl
    rw [h]
    rfl

/-- C2: rendering is a pure, deterministic function of its input data: two
provider environments that agree on the rendered accounts' tag sets, on the
IAM user list and on those users' access keys and tag sets produce
byte-identical markdown for the same organization name and account list
(in particular, rendering the same data twice is byte-identical, and nothing
outside the passed-in data influences the output). -/
theorem create_markdown_pure_deterministic (name : String) (accounts : List Account)
    (env1 env2 : ProviderEnv)
    (hacc : ∀ a ∈ accounts, env1.accountTags a.id = env2.accountTags a.id)
    (husers : env1.iamUsers = env2.iamUsers)
    (hkeys : ∀ u ∈ env1.iamUsers,
      env1.userAccessKeys u.userName = env2.userAccessKeys u.userName)
    (htags : ∀ u ∈ env1.iamUsers, env1.userTags u.userName = env2.userTags u.userName) :
    create_markdown name accounts env1 = create_markdown name accounts env2 := by
  have hrows : account_rows env1 accounts = account_rows env2 accounts := by
    unfold account_rows
    exact List.map_congr_left fun a ha => by
      unfold accountRow
      rw [hacc a (List.mem_mergeSort.mp ha)]
  have huserrows : env1.iamUsers.map (userRows env1) = env2.iamUsers.map (userRows env2) := by
    rw [← husers]
    exact List.map_congr_left fun u hu => by
      unfold userRows
      rw [hkeys u hu, htags u hu]
  unfold create_markdown
  rw [hrows, huserrows]

/-- The account used by the C2 witness. -/
def acc111 : Account := ⟨"111", "prod", "prod@example.com", ⟨2021, 1, 10, 0⟩⟩

/-- A provider environment for the C2 witness. -/
def envA : ProviderEnv :=
  ⟨fun i => if i = "111" then [⟨"Description", "Prod"⟩] else [],
   [⟨"alice"⟩],
   fun _ => [⟨"AKIA1"⟩],
   fun _ => [⟨"description", "ci"⟩]⟩

/-- A provider environment agreeing with `envA` on everything the rendering
of `[acc111]` and `alice` can observe, but differing elsewhere (other
accounts' tags, other users' keys and tags). -/
def envB : ProviderEnv :=
  ⟨fun i => if i = "111" then [⟨"Description", "Prod"⟩] else [⟨"Description", "Other"⟩],
   [⟨"alice"⟩],
   fun n => if n = "alice" then [⟨"AKIA1"⟩] else [⟨"ZZZ"⟩],
   fun n => if n = "alice" then [⟨"description", "ci"⟩] else [⟨"description", "x"⟩]⟩

/-- Witness for C2: the two environments differ outside the rendered data
yet the rendered documents are byte-identical. -/
theorem create_markdown_pure_deterministic_witness :
    create_markdown "org1" [acc111] envA = create_markdown "org1" [acc111] envB :=
  create_markdown_pure_deterministic "org1" [acc111] envA envB
    (by decide) rfl (by decide) (by decide)

/-- Every event the purge loop emits is a deletion. -/
theorem purge_events (w : World) (ids : List String) :
    ∀ e ∈ (purge w ids).1, ∃ id, e = Event.deleteDoc id := by
  induction ids with
  | nil => intro e he; simp [purge] at he
  | cons id rest ih =>
    intro e he
    cases hdel : w.deleteResult id with
    | error s =>
      simp [purge, hdel] at he
      exact ⟨id, he⟩
    | ok u =>
      simp [purge, hdel] at he
      rcases he with he | he
      · exact ⟨id, he⟩
      · exact ih e he

/-- A purge that raised no error deleted every listed child. -/
theorem purge_complete (w : World) (ids : List String) :
    (purge w ids).2 = none → ∀ id ∈ ids, Event.deleteDoc id ∈ (purge w ids).1 := by
  induction ids with
  | nil => intro _ id hid; simp at hid
  | cons i rest ih =>
    intro h id hid
    cases hdel : w.deleteResult i with
    | error s => simp [purge, hdel] at h
    | ok u =>
      simp only [purge, hdel] at h ⊢
      rcases List.mem_cons.mp hid with rfl | hid2
      · exact List.mem_cons_self _ _
      · exact List.mem_cons_of_mem _ (ih h id hid2)

/-- A purge whose deletions all succeed issues exactly one deletion per
child, in order, and raises no error. -/
theorem purge_ok (w : World) (ids : List String)
    (h : ∀ id ∈ ids, w.deleteResult id = .ok ()) :
    purge w ids = (ids.map Event.deleteDoc, none) := by
  induction ids with
  | nil => rfl
  | cons i rest ih =>
    have hi : w.deleteResult i = .ok () := h i (List.mem_cons_self _ _)
    simp [purge, hi, ih fun id hid => h id (List.mem_cons_of_mem _ hid)]

/-- The publish loop never deletes a document. -/
theorem publish_no_delete (w : World) (p : String) (cs : List Cred) :
    ∀ acc, ∀ e ∈ (publish w p acc cs).1, e.isDelete = false := by
  induction cs with
  | nil => intro acc e he; simp [publish] at he
  | cons c rest ih =>
    intro acc e he
    cases horg : w.orgData c with
    | error s =>
      simp [publish, horg] at he
      subst he; rfl
    | ok d =>
      cases hcr : w.createResult p c.name (create_markdown c.name d.accounts d.provider) with
      | error s =>
        simp [publish, horg, hcr] at he
        rcases he with rfl | rfl <;> rfl
      | ok u =>
        simp [publish, horg, hcr] at he
        rcases he with rfl | rfl | he
        · rfl
        · rfl
        · exact ih (acc ++ d.accounts) e he

/-- Every document the publish loop creates is titled with some configured
organization's name and carries exactly that organization's rendered
markdown, built from that organization's fetched data. -/
theorem publish_create_shape (w : World) (p : String) (cs : List Cred) :
    ∀ acc pid t b, Event.createDoc pid t b ∈ (publish w p acc cs).1 →
      ∃ c, c ∈ cs ∧ ∃ d, w.orgData c = .ok d ∧ pid = p ∧ t = c.name ∧
        b = create_markdown c.name d.accounts d.provider := by
  induction cs with
  | nil => intro acc pid t b hmem; simp [publish] at hmem
  | cons c rest ih =>
    intro acc pid t b hmem
    cases horg : w.orgData c with
    | error s => simp [publish, horg] at hmem
    | ok d =>
      cases hcr : w.createResult p c.name (create_markdown c.name d.accounts d.provider) with
      | error s =>
        simp [publish, horg, hcr] at hmem
        obtain ⟨hp, ht, hb⟩ := hmem
        exact ⟨c, List.mem_cons_self _ _, d, horg, hp, ht, hb⟩
      | ok u =>
        simp [publish, horg, hcr] at hmem
        rcases hmem with ⟨hp, ht, hb⟩ | hmem
        · exact ⟨c, List.mem_cons_self _ _, d, horg, hp, ht, hb⟩
        · obtain ⟨c2, hc2, d2, hd2, hp, ht, hb⟩ := ih (acc ++ d.accounts) pid t b hmem
          exact ⟨c2, List.mem_cons_of_mem _ hc2, d2, hd2, hp, ht, hb⟩

/-- The `all_accounts` accumulator never influences the publish loop's
events or outcome. -/
theorem publish_acc_irrel (w : World) (p : String) (cs : List Cred) :
    ∀ acc acc2, publish w p acc cs = publish w p acc2 cs := by
  induction cs with
  | nil => intro acc acc2; rfl
  | cons c rest ih =>
    intro acc acc2
    cases horg : w.orgData c with
    | error s => simp [publish, horg]
    | ok d =>
      cases hcr : w.createResult p c.name (create_markdown c.name d.accounts d.provider) with
      | error s => simp [publish, horg, hcr]
      | ok u => simp [publish, horg, hcr, ih (acc ++ d.accounts) (acc2 ++ d.accounts)]

/-- A list with no creation events is pairwise safe for the
purge-before-publish relation. -/
theorem pairwise_no_create (l : List Event) (h : ∀ a ∈ l, a.isCreate = false) :
    l.Pairwise (fun a b => a.isCreate = true → b.isDelete = false) :=
  List.pairwise_of_forall_mem_list fun a ha b _ hc => absurd hc (by simp [h a ha])

/-- A creation-free block followed by a deletion-free block is pairwise
safe for the purge-before-publish relation. -/
theorem pairwise_create_delete_append (l1 l2 : List Event)
    (h1 : ∀ a ∈ l1, a.isCreate = false) (h2 : ∀ b ∈ l2, b.isDelete = false) :
    (l1 ++ l2).Pairwise (fun a b => a.isCreate = true → b.isDelete = false) := by
  rw [List.pairwise_append]
  exact ⟨pairwise_no_create l1 h1,
    List.pairwise_of_forall_mem_list fun a _ b hb _ => h2 b hb,
    fun a _ b hb _ => h2 b hb⟩

/-- C1: in every run, no deletion ever follows a document creation in the
trace (so the whole purge phase precedes the first `createDocument` call),
and whenever any document is created, every existing child of the resolved
parent had already been deleted. -/
theorem purge_completes_before_first_create (w : World) :
    (main' w).1.Pairwise (fun a b => a.isCreate = true → b.isDelete = false) ∧
    (∀ parentId children, w.resolveResult = .ok parentId →
      w.childrenResult parentId = .ok children →
      (∃ e ∈ (main' w).1, e.isCreate = true) →
      ∀ cid ∈ children, Event.deleteDoc cid ∈ (main' w).1) := by
  cases hres : w.resolveResult with
  | error s =>
    have htr : (main' w).1 = [Event.resolveParent] := by simp [main', hres]
    constructor
    · rw [htr]
      refine pairwise_no_create _ ?_
      intro a ha
      have h2 : a = Event.resolveParent := by simpa using ha
      subst h2; rfl
    · intro parentId children hr
      simp at hr
  | ok parentId0 =>
    cases hch : w.childrenResult parentId0 with
    | error s =>
      have htr : (main' w).1 = [Event.resolveParent, Event.listChildren parentId0] := by
        simp [main', hres, hch]
      constructor
      · rw [htr]
        refine pairwise_no_create _ ?_
        intro a ha
        have h2 : a = Event.resolveParent ∨ a = Event.listChildren parentId0 := by
          simpa using ha
        rcases h2 with rfl | rfl <;> rfl
      · intro parentId children hr hc
        injection hr with hpid
        subst hpid
        rw [hch] at hc
        simp at hc
    | ok children0 =>
      cases hp : (purge w children0).2 with
      | some e0 =>
        have htr : (main' w).1 =
            [Event.resolveParent, Event.listChildren parentId0] ++ (purge w children0).1 := by
          simp [main', hres, hch, hp]
        have hnc : ∀ a ∈ (main' w).1, a.isCreate = false := by
          intro a ha
          rw [htr] at ha
          rcases List.mem_append.mp ha with ha | ha
          · have h2 : a = Event.resolveParent ∨ a = Event.listChildren parentId0 := by
              simpa using ha
            rcases h2 with rfl | rfl <;> rfl
          · obtain ⟨id, rfl⟩ := purge_events w children0 a ha
            rfl
        refine ⟨pairwise_no_create _ hnc, ?_⟩
        intro parentId children hr hc hex
        obtain ⟨e, he, hce⟩ := hex
        rw [hnc e he] at hce
        cases hce
      | none =>
        cases hcred : w.credsResult with
        | error ce =>
          have htr : (main' w).1 =
              [Event.resolveParent, Event.listChildren parentId0]
                ++ (purge w children0).1 ++ [Event.getCreds] := by
            simp [main', hres, hch, hp, hcred]
          have hnc : ∀ a ∈ (main' w).1, a.isCreate = false := by
            intro a ha
            rw [htr] at ha
            simp only [List.mem_append] at ha
            rcases ha with (ha | ha) | ha
            · have h2 : a = Event.resolveParent ∨ a = Event.listChildren parentId0 := by
                simpa using ha
              rcases h2 with rfl | rfl <;> rfl
            · obtain ⟨id, rfl⟩ := purge_events w children0 a ha
              rfl
            · have h2 : a = Event.getCreds := by simpa using ha
              subst h2; rfl
          refine ⟨pairwise_no_create _ hnc, ?_⟩
          intro parentId children hr hc hex
          obtain ⟨e, he, hce⟩ := hex
          rw [hnc e he] at hce
          cases hce
        | ok creds =>
          have htr : (main' w).1 =
              ([Event.resolveParent, Event.listChildren parentId0]
                ++ (purge w children0).1 ++ [Event.getCreds])
                ++ (publish w parentId0 [] creds).1 := by
            simp [main', hres, hch, hp, hcred, List.append_assoc]
          constructor
          · rw [htr]
            refine pairwise_create_delete_append _ _ ?_ ?_
            · intro a ha
              simp only [List.mem_append] at ha
              rcases ha with (ha | ha) | ha
              · have h2 : a = Event.resolveParent ∨ a = Event.listChildren parentId0 := by
                  simpa using ha
                rcases h2 with rfl | rfl <;> rfl
              · obtain ⟨id, rfl⟩ := purge_events w children0 a ha
                rfl
              · have h2 : a = Event.getCreds := by simpa using ha
                subst h2; rfl
            · intro b hb
              exact publish_no_delete w parentId0 creds [] b hb
          · intro parentId children hr hc hex cid hcid
            injection hr with hpid
            subst hpid
            rw [hch] at hc
            injection hc with hcc
            subst hcc
            have hmem := purge_complete w children0 hp cid hcid
            rw [htr]
            simp only [List.mem_append]
            left; left; right
            exact hmem

/-- C7: if resolving the parent document identifier fails, the run aborts
immediately: the trace is the single failed resolve call, so no provider
calls are issued and no deletions or creations are performed. -/
theorem resolve_failure_no_calls (w : World) (s : String)
    (h : w.resolveResult = .error s) :
    main' w = ([Event.resolveParent], .error (.docStore s)) ∧
    ∀ e ∈ (main' w).1, e.isProvider = false ∧ e.isDelete = false ∧ e.isCreate = false := by
  have hm : main' w = ([Event.resolveParent], .error (.docStore s)) := by
    simp [main', h]
  refine ⟨hm, ?_⟩
  intro e he
  rw [hm] at he
  simp at he
  subst he
  exact ⟨rfl, rfl, rfl⟩

/-- C8: with two configured organizations where the first publishes fine
and the second's provider fetch fails, the run's trace shows the first
organization's document already created before the failing fetch, ends at
that failing fetch (no further organization is processed), and the run
terminates with the error attributed to the second organization. -/
theorem second_org_failure_spec (w : World) (p : String) (children : List String)
    (c1 c2 : Cred) (d1 : OrgData) (s : String)
    (hres : w.resolveResult = .ok p)
    (hch : w.childrenResult p = .ok children)
    (hdel : ∀ id ∈ children, w.deleteResult id = .ok ())
    (hcreds : w.credsResult = .ok [c1, c2])
    (h1 : w.orgData c1 = .ok d1)
    (hcr : w.createResult p c1.name (create_markdown c1.name d1.accounts d1.provider) = .ok ())
    (h2 : w.orgData c2 = .error s) :
    main' w =
      ([Event.resolveParent, Event.listChildren p] ++ children.map Event.deleteDoc
        ++ [Event.getCreds, Event.providerFetch c1.name,
            Event.createDoc p c1.name (create_markdown c1.name d1.accounts d1.provider),
            Event.providerFetch c2.name],
       .error (.provider c2.name s)) ∧
    Event.createDoc p c1.name (create_markdown c1.name d1.accounts d1.provider)
      ∈ (main' w).1 ∧
    (main' w).2 = .error (.provider c2.name s) := by
  have hpu := purge_ok w children hdel
  have hm : main' w =
      ([Event.resolveParent, Event.listChildren p] ++ children.map Event.deleteDoc
        ++ [Event.getCreds, Event.providerFetch c1.name,
            Event.createDoc p c1.name (create_markdown c1.name d1.accounts d1.provider),
            Event.providerFetch c2.name],
       .error (.provider c2.name s)) := by
    simp [main', hres, hch, hpu, hcreds, publish, h1, hcr, h2, List.append_assoc]
  refine ⟨hm, ?_, by rw [hm]⟩
  rw [hm]
  simp

/-- C10: every document any run creates is titled with some configured
organization's name and carries exactly the markdown rendered from that
organization's own fetched data — and the `all_accounts` accumulator never
influences the publish loop at all. -/
theorem created_body_per_org_only (w : World) :
    (∀ pid t b, Event.createDoc pid t b ∈ (main' w).1 →
      ∃ creds, w.credsResult = .ok creds ∧ ∃ c, c ∈ creds ∧ ∃ d,
        w.orgData c = .ok d ∧ t = c.name ∧
        b = create_markdown c.name d.accounts d.provider) ∧
    (∀ p acc acc2 cs, publish w p acc cs = publish w p acc2 cs) := by
  refine ⟨?_, fun p acc acc2 cs => publish_acc_irrel w p cs acc acc2⟩
  intro pid t b hmem
  cases hres : w.resolveResult with
  | error s => simp [main', hres] at hmem
  | ok parentId =>
    cases hch : w.childrenResult parentId with
    | error s => simp [main', hres, hch] at hmem
    | ok children =>
      cases hp : (purge w children).2 with
      | some e0 =>
        simp only [main', hres, hch, hp] at hmem
        simp [List.mem_append] at hmem
        obtain ⟨id, heq⟩ := purge_events w children _ hmem
        simp at heq
      | none =>
        cases hcred : w.credsResult with
        | error ce =>
          simp only [main', hres, hch, hp, hcred] at hmem
          simp [List.mem_append] at hmem
          obtain ⟨id, heq⟩ := purge_events w children _ hmem
          simp at heq
        | ok creds =>
          simp only [main', hres, hch, hp, hcred] at hmem
          simp [List.mem_append] at hmem
          rcases hmem with h | h
          · obtain ⟨id, heq⟩ := purge_events w children _ h
            simp at heq
          · obtain ⟨c, hc, d, hd, hpide, hte, hbe⟩ :=
              publish_create_shape w parentId creds [] pid t b h
            exact ⟨creds, rfl, c, hc, d, hd, hte, hbe⟩

/-- First configured credential set for the orchestrator witnesses. -/
def cred1 : Cred := ⟨"org1", "AK1", "SK1"⟩

/-- Second configured credential set for the orchestrator witnesses. -/
def cred2 : Cred := ⟨"org2", "AK2", "SK2"⟩

/-- A provider environment with no tags, users or keys. -/
def emptyProv : ProviderEnv := ⟨fun _ => [], [], fun _ => [], fun _ => []⟩

/-- Fetched organization data for `cred1` in the witnesses. -/
def orgData1 : OrgData := ⟨[], emptyProv⟩

/-- A world with one stale child document and two organizations, where
`org1` publishes fine and `org2`'s provider fetch fails. -/
def w8 : World :=
  ⟨.ok "parent", fun _ => .ok ["old1"], fun _ => .ok (), .ok [cred1, cred2],
   fun c => if c.name = "org1" then .ok orgData1 else .error "AccessDenied",
   fun _ _ _ => .ok ()⟩

/-- A world whose parent-document resolution fails. -/
def w7 : World :=
  ⟨.error "http 500", fun _ => .ok [], fun _ => .ok (), .ok [],
   fun _ => .error "unreached", fun _ _ _ => .ok ()⟩

/-- Witness for C1: in the concrete run of `w8` — which does create a
document — the stale child `old1` was deleted. -/
theorem purge_completes_before_first_create_witness :
    Event.deleteDoc "old1" ∈ (main' w8).1 :=
  (purge_completes_before_first_create w8).2 "parent" ["old1"] rfl rfl
    ⟨Event.createDoc "parent" cred1.name
        (create_markdown cred1.name orgData1.accounts orgData1.provider),
      by simp [main', w8, purge, publish, cred1, cred2, orgData1], rfl⟩
    "old1" (List.mem_cons_self _ _)

/-- Witness for C7: the concrete failing-resolve world stops after the one
resolve attempt. -/
theorem resolve_failure_no_calls_witness :
    main' w7 = ([Event.resolveParent], .error (.docStore "http 500")) :=
  (resolve_failure_no_calls w7 "http 500" rfl).1

/-- Witness for C8: the concrete two-organization run of `w8` creates
`org1`'s document, then fails on `org2`'s fetch and stops. -/
theorem second_org_failure_spec_witness :
    main' w8 =
      ([Event.resolveParent, Event.listChildren "parent"]
        ++ (["old1"].map Event.deleteDoc)
        ++ [Event.getCreds, Event.providerFetch cred1.name,
            Event.createDoc "parent" cred1.name
              (create_markdown cred1.name orgData1.accounts orgData1.provider),
            Event.providerFetch cred2.name],
       .error (.provider cred2.name "AccessDenied")) :=
  (second_org_failure_spec w8 "parent" ["old1"] cred1 cred2 orgData1 "AccessDenied"
    rfl rfl (fun _ _ => rfl) rfl rfl rfl rfl).1

/-- Witness for C10: the document `w8`'s run creates is some configured
organization's own rendering, and a publish run's result is unchanged when
the `all_accounts` accumulator differs. -/
theorem created_body_per_org_only_witness :
    (∃ creds, w8.credsResult = .ok creds ∧ ∃ c, c ∈ creds ∧ ∃ d,
      w8.orgData c = .ok d ∧ cred1.name = c.name ∧
      create_markdown cred1.name orgData1.accounts orgData1.provider =
        create_markdown c.name d.accounts d.provider) ∧
    publish w8 "parent" [acc111] [cred1] = publish w8 "parent" [] [cred1] :=
  ⟨(created_body_per_org_only w8).1 "parent" cred1.name
      (create_markdown cred1.name orgData1.accounts orgData1.provider)
      (by simp [main', w8, purge, publish, cred1, cred2, orgData1]),
   (created_body_per_org_only w8).2 "parent" [acc111] [] [cred1]⟩
